/-
Verification of the MoxApp runtime core against its specification.

This file gives a shallow embedding, in Lean 4, of the parts of the MoxApp
Go source that the specification's testable properties talk about:

* `internal/metrics/percentile.go` — the ring buffer and its percentile,
  min, max and average operations (values are modelled as rationals; every
  float64 computation exercised by the properties below is exact, and the
  one division `size * p / 100` is correctly rounded in float64, which for
  the magnitudes involved, at most 10^5 with p a small integer or a value
  with denominator dividing 100, cannot cross an integer boundary, so the
  truncated result agrees with the rational model);
* `internal/config/config.go`, plus the config type definitions — the
  configuration store, its CRUD mutations, validation, normalization,
  auth resolution and incoming-route matching (Go strings are modelled as
  `List Char`, Go maps as association lists);
* `internal/client/token_manager.go` — the token refresh algorithm, with
  the network fetches abstracted as a list of attempt outcomes;
* the scheduler's result post-processing and emergency-stop flags
  (`scheduler.go`);
* `EndpointMetrics` record/reset operations (metrics package);
* `selectWeightedResponse` from `internal/api/incoming_handler.go`.
-/
import Mathlib

/-- Go strings, modelled as their character sequences. -/
abbrev Str := List Char

/-- Conversion from Lean string literals to the Go-string model. -/
def str (s : String) : Str := s.data

namespace Mox

/-! ## Ring buffer (`internal/metrics/percentile.go`) -/

/-- `RingBuffer` from `percentile.go`: a fixed-size circular buffer.
`data` has length `capacity` for any buffer produced by `NewRingBuffer`
followed by `Add`s. -/
structure RingBuffer where
  data : List ℚ
  capacity : ℕ
  index : ℕ
  size : ℕ
deriving DecidableEq, Repr

/-- `NewRingBuffer(capacity)`: `make([]float64, capacity)` is all zeroes. -/
def NewRingBuffer (capacity : ℕ) : RingBuffer :=
  { data := List.replicate capacity 0, capacity := capacity, index := 0, size := 0 }

/-- `RingBuffer.Add`: write at `index`, advance modulo capacity, grow `size`
up to `capacity`. (For `capacity = 0` the Go code would panic; the model is
total and never exercised there.) -/
def RingBuffer.Add (rb : RingBuffer) (value : ℚ) : RingBuffer :=
  { rb with
    data := rb.data.set rb.index value
    index := (rb.index + 1) % rb.capacity
    size := if rb.size < rb.capacity then rb.size + 1 else rb.size }

/-- Go's `int(x)` conversion of a float truncates toward zero; on the exact
rational model this is `tdiv` of numerator by denominator. -/
def goTrunc (q : ℚ) : ℤ := q.num.tdiv (q.den : ℤ)

/-- `sort.Float64s`: sorting a list of values ascending.  Any sorting
algorithm ordering values by `≤` produces this same list, because equal
values are indistinguishable, so insertion sort models Go's pdqsort. -/
def sortFloat64s (l : List ℚ) : List ℚ := l.insertionSort (· ≤ ·)

/-- The index computed by `Percentile` before the array access:
`index := int(float64(rb.size) * p / 100.0)`, clamped to `size-1` when
`index >= rb.size`. -/
def percentileIndex (n : ℕ) (p : ℚ) : ℤ :=
  if (n : ℤ) ≤ goTrunc ((n : ℚ) * p / 100) then (n : ℤ) - 1
  else goTrunc ((n : ℚ) * p / 100)

/-- `RingBuffer.Percentile`: 0 on an empty buffer, else sort a copy of
`data[:size]` and pick the clamped index. -/
def RingBuffer.Percentile (rb : RingBuffer) (p : ℚ) : ℚ :=
  if rb.size = 0 then 0
  else
    let sortedData := sortFloat64s (rb.data.take rb.size)
    sortedData.getD (percentileIndex rb.size p).toNat 0

/-- `RingBuffer.Max`: 0 on an empty buffer, else fold over `data[0:size]`
starting from `data[0]`. -/
def RingBuffer.Max (rb : RingBuffer) : ℚ :=
  if rb.size = 0 then 0
  else
    let l := rb.data.take rb.size
    (l.drop 1).foldl (fun m v => if m < v then v else m) (l.headD 0)

/-- `RingBuffer.Min`: 0 on an empty buffer, else fold over `data[0:size]`
starting from `data[0]`. -/
def RingBuffer.Min (rb : RingBuffer) : ℚ :=
  if rb.size = 0 then 0
  else
    let l := rb.data.take rb.size
    (l.drop 1).foldl (fun m v => if v < m then v else m) (l.headD 0)

/-- `RingBuffer.Average`: 0 on an empty buffer, else sum over `data[0:size]`
divided by `size`. -/
def RingBuffer.Average (rb : RingBuffer) : ℚ :=
  if rb.size = 0 then 0
  else ((rb.data.take rb.size).foldl (· + ·) 0) / (rb.size : ℚ)

/-- The sequence `1, 2, ..., N` as rationals. -/
def seqList (N : ℕ) : List ℚ := (List.range N).map (fun i : ℕ => (i : ℚ) + 1)

/-- The buffer loaded with the monotone sequence `1..N` (capacity 1000). -/
def loadBuffer (N : ℕ) : RingBuffer :=
  (seqList N).foldl RingBuffer.Add (NewRingBuffer 1000)

/-! ### Ring buffer lemmas -/

lemma goTrunc_eq_floor {q : ℚ} (h : 0 ≤ q) : goTrunc q = ⌊q⌋ := by
  have hnum : 0 ≤ q.num := Rat.num_nonneg.mpr h
  rw [goTrunc, Rat.floor_def]
  exact Int.tdiv_eq_ediv hnum (Int.ofNat_nonneg q.den)

lemma goTrunc_nonneg {q : ℚ} (h : 0 ≤ q) : 0 ≤ goTrunc q := by
  rw [goTrunc_eq_floor h]
  exact Int.floor_nonneg.mpr h

lemma percentileIndex_nonneg {n : ℕ} {p : ℚ} (hn : 0 < n) (hp : 0 ≤ p) :
    0 ≤ percentileIndex n p := by
  have hq : (0 : ℚ) ≤ (n : ℚ) * p / 100 := by positivity
  have ht := goTrunc_nonneg hq
  rw [percentileIndex]
  split <;> omega

lemma percentileIndex_lt {n : ℕ} (p : ℚ) (_hn : 0 < n) :
    percentileIndex n p < (n : ℤ) := by
  rw [percentileIndex]
  split <;> omega

lemma length_seqList (N : ℕ) : (seqList N).length = N := by
  rw [seqList, List.length_map, List.length_range]

lemma Add_partial (cap : ℕ) (pre : List ℚ) (v : ℚ) (hlt : pre.length < cap) :
    RingBuffer.Add
      { data := pre ++ List.replicate (cap - pre.length) 0, capacity := cap,
        index := pre.length % cap, size := pre.length } v
    = { data := (pre ++ [v]) ++ List.replicate (cap - (pre.length + 1)) 0,
        capacity := cap, index := (pre.length + 1) % cap,
        size := pre.length + 1 } := by
  have hmod : pre.length % cap = pre.length := Nat.mod_eq_of_lt hlt
  have hrep : List.replicate (cap - pre.length) (0 : ℚ)
      = (0 : ℚ) :: List.replicate (cap - (pre.length + 1)) 0 := by
    have h : cap - pre.length = (cap - (pre.length + 1)) + 1 := by omega
    rw [h, List.replicate_succ]
  rw [RingBuffer.Add]
  simp only [hmod]
  rw [List.set_append_right _ _ (le_refl _), Nat.sub_self, hrep]
  rw [List.set_cons_zero, if_pos hlt, List.append_assoc, List.singleton_append]

lemma loadList_eq (cap : ℕ) (vs : List ℚ) (h : vs.length ≤ cap) :
    vs.foldl RingBuffer.Add (NewRingBuffer cap)
    = { data := vs ++ List.replicate (cap - vs.length) 0, capacity := cap,
        index := vs.length % cap, size := vs.length } := by
  induction vs using List.reverseRecOn with
  | nil =>
    rw [List.foldl_nil, NewRingBuffer]
    simp only [List.nil_append, List.length_nil, Nat.sub_zero, Nat.zero_mod]
  | append_singleton vs' v ih =>
    have hlen : (vs' ++ [v]).length = vs'.length + 1 := by
      rw [List.length_append, List.length_singleton]
    have hlt : vs'.length < cap := by rw [hlen] at h; omega
    rw [List.foldl_append, List.foldl_cons, List.foldl_nil,
      ih (le_of_lt hlt), Add_partial cap vs' v hlt, hlen]

lemma loadBuffer_eq {N : ℕ} (hN : N ≤ 1000) :
    loadBuffer N = { data := seqList N ++ List.replicate (1000 - N) 0, capacity := 1000,
                     index := N % 1000, size := N } := by
  rw [loadBuffer]
  have h := loadList_eq 1000 (seqList N) (by rw [length_seqList]; omega)
  rw [length_seqList] at h
  exact h

lemma seqList_sorted (N : ℕ) : (seqList N).Sorted (· ≤ ·) := by
  rw [seqList]
  exact List.Pairwise.map _
    (fun a b (h : a < b) => by
      have hab : (a : ℚ) < (b : ℚ) := by exact_mod_cast h
      have : (a : ℚ) + 1 ≤ (b : ℚ) + 1 := by linarith
      exact this)
    (List.pairwise_lt_range N)

lemma seqList_getD {N i : ℕ} (h : i < N) : (seqList N).getD i 0 = (i : ℚ) + 1 := by
  rw [seqList, List.getD_eq_getElem?_getD, List.getElem?_map, List.getElem?_range h]
  rfl

/-- On a non-empty buffer `Percentile` is the clamped-index element of the
sorted copy of the live region. -/
lemma Percentile_of_ne {rb : RingBuffer} {p : ℚ} (h : rb.size ≠ 0) :
    rb.Percentile p
      = (sortFloat64s (rb.data.take rb.size)).getD (percentileIndex rb.size p).toNat 0 := by
  rw [RingBuffer.Percentile, if_neg h]

/-- Workhorse for the percentile-of-monotone-sequence property: for the
buffer loaded with `1..N`, `Percentile q` is the value at the clamped
0-based index `min ⌊N·q/100⌋ (N−1)`, which for this sequence is that index
plus one. -/
lemma percentile_loadBuffer {N : ℕ} (q : ℚ) (h0 : 0 < N) (h1 : N ≤ 1000) (hq : 0 ≤ q) :
    (loadBuffer N).Percentile q
      = ((min (goTrunc ((N : ℚ) * q / 100)).toNat (N - 1) : ℕ) : ℚ) + 1 := by
  rw [loadBuffer_eq h1, Percentile_of_ne (show N ≠ 0 by omega)]
  have htake : (seqList N ++ List.replicate (1000 - N) (0 : ℚ)).take N = seqList N := by
    have h := List.take_left (seqList N) (List.replicate (1000 - N) (0 : ℚ))
    rwa [length_seqList] at h
  simp only at htake ⊢
  rw [htake, sortFloat64s, (seqList_sorted N).insertionSort_eq]
  have hidx_lt : (percentileIndex N q).toNat < N := by
    have h2 := percentileIndex_lt q h0
    have h3 := percentileIndex_nonneg h0 hq
    omega
  rw [seqList_getD hidx_lt]
  have hmin : (percentileIndex N q).toNat
      = min (goTrunc ((N : ℚ) * q / 100)).toNat (N - 1) := by
    have hq' : (0 : ℚ) ≤ (N : ℚ) * q / 100 := by positivity
    have ht := goTrunc_nonneg hq'
    rw [percentileIndex]
    split <;> omega
  rw [hmin]

/-- Structural invariant of every buffer built by `NewRingBuffer` and `Add`:
the backing slice has length `capacity` and `size` never exceeds it. -/
def RingBuffer.wellFormed (rb : RingBuffer) : Prop :=
  rb.data.length = rb.capacity ∧ rb.size ≤ rb.capacity

instance (rb : RingBuffer) : Decidable rb.wellFormed := by
  rw [RingBuffer.wellFormed]; infer_instance

/-- C1. The percentile of the monotone load `1..N` is the value at the
0-based clamped index `min ⌊N·q/100⌋ (N−1)` of the sorted live region, i.e.
`min ⌊N·q/100⌋ (N−1) + 1` for this sequence (so 96 for `N = 100, q = 95`,
not 95 as the claim's concrete instance states). -/
theorem ringBuffer_percentile_monotone (N : ℕ) (q : ℚ)
    (h0 : 0 < N) (h1 : N ≤ 1000) (hq : 0 ≤ q) :
    (loadBuffer N).Percentile q
      = ((min (goTrunc ((N : ℚ) * q / 100)).toNat (N - 1) : ℕ) : ℚ) + 1 :=
  percentile_loadBuffer q h0 h1 hq

/-- Witness for C1 at the concrete instance `N = 100`, `q = 95`. -/
theorem ringBuffer_percentile_monotone_witness :
    (loadBuffer 100).Percentile 95
      = ((min (goTrunc ((100 : ℚ) * 95 / 100)).toNat (100 - 1) : ℕ) : ℚ) + 1 :=
  ringBuffer_percentile_monotone 100 95 (by norm_num) (by norm_num) (by norm_num)

/-- C1 counterexample: for the buffer loaded with `1..100`,
`Percentile 95` is `96`, not `95` as the claim states. -/
theorem ringBuffer_percentile_95_counterexample :
    (loadBuffer 100).Percentile 95 = 96 ∧ ((96 : ℚ) = 95 → False) := by
  have h := percentile_loadBuffer (N := 100) 95 (by norm_num) (by norm_num) (by norm_num)
  have hsimp : (((100 : ℕ) : ℚ) * 95 / 100) = (95 : ℚ) := by norm_num
  rw [hsimp, goTrunc_eq_floor (by norm_num)] at h
  norm_num [show ((95 : ℤ).toNat : ℕ) = 95 from rfl] at h
  exact ⟨h, by norm_num⟩

/-- C9. Safety of the ring buffer's read operations: on an empty buffer
`Percentile`, `Min`, `Max` and `Average` all return 0; `NewRingBuffer`
establishes and `Add` preserves the structural invariant; and on every
well-formed non-empty buffer the clamped percentile index is within the
bounds of the sorted copy. -/
theorem ringBuffer_safety :
    (∀ (rb : RingBuffer) (p : ℚ), rb.size = 0 →
      rb.Percentile p = 0 ∧ rb.Min = 0 ∧ rb.Max = 0 ∧ rb.Average = 0)
    ∧ (∀ c : ℕ, (NewRingBuffer c).wellFormed)
    ∧ (∀ (rb : RingBuffer) (v : ℚ), rb.wellFormed → (rb.Add v).wellFormed)
    ∧ (∀ (rb : RingBuffer) (p : ℚ), rb.wellFormed → 0 < rb.size → 0 ≤ p →
        0 ≤ percentileIndex rb.size p ∧
        (percentileIndex rb.size p).toNat
          < (sortFloat64s (rb.data.take rb.size)).length) := by
  refine ⟨?_, ?_, ?_, ?_⟩
  · intro rb p h
    rw [RingBuffer.Percentile, RingBuffer.Min, RingBuffer.Max, RingBuffer.Average]
    simp [h]
  · intro c
    exact ⟨List.length_replicate c 0, Nat.zero_le c⟩
  · intro rb v ⟨h1, h2⟩
    refine ⟨?_, ?_⟩
    · rw [RingBuffer.Add]
      simpa using h1
    · rw [RingBuffer.Add]
      simp only
      split <;> omega
  · intro rb p ⟨h1, h2⟩ hpos hp
    refine ⟨percentileIndex_nonneg hpos hp, ?_⟩
    rw [sortFloat64s, List.length_insertionSort, List.length_take]
    have := percentileIndex_lt p hpos
    have := percentileIndex_nonneg hpos hp
    omega

/-- Witness for C9 at concrete buffers: the empty buffer returns 0
everywhere, and the singleton buffer's percentile index is in bounds. -/
theorem ringBuffer_safety_witness :
    ((NewRingBuffer 2).Percentile 50 = 0 ∧ (NewRingBuffer 2).Min = 0
      ∧ (NewRingBuffer 2).Max = 0 ∧ (NewRingBuffer 2).Average = 0)
    ∧ ((NewRingBuffer 2).Add 7).wellFormed
    ∧ (0 ≤ percentileIndex ((NewRingBuffer 2).Add 7).size 50 ∧
        (percentileIndex ((NewRingBuffer 2).Add 7).size 50).toNat
          < (sortFloat64s (((NewRingBuffer 2).Add 7).data.take
              ((NewRingBuffer 2).Add 7).size)).length) :=
  ⟨ringBuffer_safety.1 (NewRingBuffer 2) 50 rfl,
   ringBuffer_safety.2.2.1 (NewRingBuffer 2) 7 (by decide),
   ringBuffer_safety.2.2.2 ((NewRingBuffer 2).Add 7) 50 (by decide) (by decide) (by norm_num)⟩

/-! ## Configuration data model (`internal/config`) -/

/-- `TokenEndpointConfig` from the config package.  `Body` is an arbitrary
YAML value (`interface{}`); no operation modelled here inspects it, so it
is carried opaquely as its raw text. -/
structure TokenEndpointConfig where
  URL : Str
  URLEnv : Str
  Method : Str
  UsernameEnv : Str
  PasswordEnv : Str
  Headers : List (Str × Str)
  Body : Option Str
  TokenPath : Str
  ExpiresPath : Str
deriving DecidableEq, Repr

/-- `AuthConfig` from the config package (`Type` is written `«Type»`
because `Type` is a Lean keyword). -/
structure AuthConfig where
  Name : Str
  «Type» : Str
  Description : Str
  HeaderName : Str
  QueryParam : Str
  EnvVar : Str
  UsernameEnv : Str
  PasswordEnv : Str
  TokenEndpoint : Option TokenEndpointConfig
  RefreshBeforeExpiry : ℤ
deriving DecidableEq, Repr

def AuthTypeNone : Str := str "none"
def AuthTypeBearer : Str := str "bearer"
def AuthTypeAPIKey : Str := str "api_key"
def AuthTypeAPIKeyQuery : Str := str "api_key_query"
def AuthTypeBasic : Str := str "basic"
def AuthTypeCustom : Str := str "custom_header"

/-- `&AuthConfig{Type: AuthTypeNone}`: the zero auth config with type
`none`. -/
def noneAuth : AuthConfig :=
  { Name := [], «Type» := AuthTypeNone, Description := [], HeaderName := [],
    QueryParam := [], EnvVar := [], UsernameEnv := [], PasswordEnv := [],
    TokenEndpoint := none, RefreshBeforeExpiry := 0 }

/-- `AuthConfig.validateTokenEndpoint`; in Go it is only invoked when
`TokenEndpoint != nil`. -/
def AuthConfig.validateTokenEndpoint (a : AuthConfig) : List Str :=
  match a.TokenEndpoint with
  | none => []
  | some te =>
    (if te.URL = [] ∧ te.URLEnv = []
      then [str "token_endpoint.url or token_endpoint.url_env required"] else [])
    ++ (if te.Method = [] then [str "token_endpoint.method required"] else [])
    ++ (if te.TokenPath = [] then [str "token_endpoint.token_path required"] else [])

/-- `AuthConfig.Validate`: accumulated error messages; Go's `switch` is the
if-chain on the (mutually exclusive) type strings. -/
def AuthConfig.Validate (a : AuthConfig) : List Str :=
  (if a.Name = [] then [str "auth config name is required"] else [])
  ++ (if a.«Type» = AuthTypeNone ∨ a.«Type» = AuthTypeBearer ∨ a.«Type» = AuthTypeAPIKey
        ∨ a.«Type» = AuthTypeAPIKeyQuery ∨ a.«Type» = AuthTypeBasic ∨ a.«Type» = AuthTypeCustom
      then [] else [str "invalid type" ++ a.«Type»])
  ++ (if a.«Type» = AuthTypeAPIKey ∨ a.«Type» = AuthTypeCustom then
        (if a.HeaderName = [] then [str "header_name required" ++ a.Name] else [])
        ++ (if a.EnvVar = [] ∧ a.TokenEndpoint = none
            then [str "env_var or token_endpoint required" ++ a.Name] else [])
      else if a.«Type» = AuthTypeAPIKeyQuery then
        (if a.QueryParam = [] then [str "query_param required" ++ a.Name] else [])
        ++ (if a.EnvVar = [] then [str "env_var required" ++ a.Name] else [])
      else if a.«Type» = AuthTypeBasic then
        (if a.UsernameEnv = [] ∨ a.PasswordEnv = []
          then [str "username_env and password_env required" ++ a.Name] else [])
      else if a.«Type» = AuthTypeBearer then
        (if a.EnvVar = [] ∧ a.TokenEndpoint = none
          then [str "env_var or token_endpoint required" ++ a.Name] else [])
        ++ (if a.TokenEndpoint ≠ none then a.validateTokenEndpoint else [])
      else [])

/-- The dynamic value of an endpoint's `auth` field (`interface{}`): absent
(`nil`), a string reference, or an inline map.  The map constructor carries
exactly the keys `parseAuthConfigMap` inspects; a key modelled as `none` is
absent (or not a string) in the Go map. -/
inductive AuthValue where
  | nullv : AuthValue
  | strv (s : Str) : AuthValue
  | mapv (ref type headerName queryParam envVar usernameEnv passwordEnv : Option Str) :
      AuthValue
deriving DecidableEq, Repr

/-- Go `map[string]*AuthConfig`, as an association list; lookup is by key. -/
def lookupA (m : List (Str × AuthConfig)) (k : Str) : Option AuthConfig :=
  (m.find? (fun kv => kv.1 = k)).map (fun kv => kv.2)

/-- Deleting a key from the auth-config map. -/
def removeA (m : List (Str × AuthConfig)) (k : Str) : List (Str × AuthConfig) :=
  m.filter (fun kv => ¬ kv.1 = k)

/-- Setting a key in the auth-config map. -/
def insertA (m : List (Str × AuthConfig)) (k : Str) (v : AuthConfig) :
    List (Str × AuthConfig) :=
  if (lookupA m k).isSome then m.map (fun kv => if kv.1 = k then (k, v) else kv)
  else m ++ [(k, v)]

/-- The inline branch of `parseAuthConfigMap`: build an auth config from
the map's fields; `type` is required. -/
def parseInlineAuthConfig (type headerName queryParam envVar usernameEnv passwordEnv :
    Option Str) : Except Str AuthConfig :=
  let cfg : AuthConfig :=
    { Name := [], «Type» := type.getD [], Description := [],
      HeaderName := headerName.getD [], QueryParam := queryParam.getD [],
      EnvVar := envVar.getD [], UsernameEnv := usernameEnv.getD [],
      PasswordEnv := passwordEnv.getD [],
      TokenEndpoint := none, RefreshBeforeExpiry := 0 }
  if cfg.«Type» = [] then .error (str "inline auth config missing required field: type")
  else .ok cfg

/-- `parseAuthConfigMap` from `trace.go`: a `ref` key with a non-empty
string value is a reference with `header_name`/`query_param` overrides;
otherwise the map is an inline auth config that must carry `type`. -/
def parseAuthConfigMap (ref type headerName queryParam envVar usernameEnv passwordEnv :
    Option Str) (configs : List (Str × AuthConfig)) : Except Str AuthConfig :=
  match ref with
  | some r =>
    if r = [] then
      parseInlineAuthConfig type headerName queryParam envVar usernameEnv passwordEnv
    else
      match lookupA configs r with
      | none => .error (str "auth config not found: " ++ r)
      | some baseCfg =>
        .ok { baseCfg with
              HeaderName := headerName.getD baseCfg.HeaderName,
              QueryParam := queryParam.getD baseCfg.QueryParam }
  | none => parseInlineAuthConfig type headerName queryParam envVar usernameEnv passwordEnv

/-- `ResolveEndpointAuth` from `trace.go`. -/
def ResolveEndpointAuth (auth : AuthValue) (configs : List (Str × AuthConfig)) :
    Except Str AuthConfig :=
  match auth with
  | .nullv => .ok noneAuth
  | .strv ref =>
    if ref = [] ∨ ref = AuthTypeNone then .ok noneAuth
    else
      match lookupA configs ref with
      | none => .error (str "auth config not found: " ++ ref)
      | some cfg => .ok cfg
  | .mapv ref type headerName queryParam envVar usernameEnv passwordEnv =>
    parseAuthConfigMap ref type headerName queryParam envVar usernameEnv passwordEnv configs

/-- `Endpoint` from the config package. -/
structure Endpoint where
  Name : Str
  Method : Str
  URLTemplate : Str
  ConfigPath : Str
  FrequencyPerMin : ℚ
  Auth : AuthValue
  ResolvedAuth : Option AuthConfig
  Headers : List (Str × Str)
  Body : Option Str
  Timeout : ℤ
  Enabled : Bool
  EnabledSet : Bool
deriving DecidableEq, Repr

/-- The valid outgoing HTTP methods. -/
def validMethod (m : Str) : Prop :=
  m = str "GET" ∨ m = str "POST" ∨ m = str "PUT" ∨ m = str "DELETE"
    ∨ m = str "PATCH" ∨ m = str "HEAD" ∨ m = str "OPTIONS"

instance (m : Str) : Decidable (validMethod m) := by
  rw [validMethod]; infer_instance

/-- `Endpoint.Validate`. -/
def Endpoint.Validate (e : Endpoint) : List Str :=
  (if e.Name = [] then [str "name is required"] else [])
  ++ (if e.Method = [] then [str "method is required"]
      else if ¬ validMethod e.Method then [str "invalid method " ++ e.Method] else [])
  ++ (if e.URLTemplate = [] ∧ e.ConfigPath = []
      then [str "url_template or config_path is required"] else [])
  ++ (if e.FrequencyPerMin < 0 then [str "frequency must be non-negative"] else [])
  ++ (if e.Timeout ≤ 0 then [str "timeout must be positive"] else [])

/-- `IncomingResponseConfig` from the config package. -/
structure IncomingResponseConfig where
  StatusCode : ℤ
  Share : ℚ
  MinResponseMs : ℤ
  MaxResponseMs : ℤ
deriving DecidableEq, Repr

/-- `IncomingResponseConfig.Validate` (the endpoint name and index only
feed the message text). -/
def IncomingResponseConfig.Validate (r : IncomingResponseConfig) : List Str :=
  (if r.StatusCode < 100 ∨ r.StatusCode > 599
    then [str "status code must be between 100 and 599"] else [])
  ++ (if r.Share < 0 ∨ r.Share > 1 then [str "share must be between 0 and 1"] else [])
  ++ (if r.MinResponseMs < 0 then [str "min_response_ms must be non-negative"] else [])
  ++ (if r.MaxResponseMs < 0 then [str "max_response_ms must be non-negative"] else [])
  ++ (if r.MaxResponseMs < r.MinResponseMs
      then [str "max_response_ms must be >= min_response_ms"] else [])

/-- `IncomingEndpoint` (an inbound route) from the config package. -/
structure IncomingEndpoint where
  Name : Str
  Path : Str
  Method : Str
  Responses : List IncomingResponseConfig
  Enabled : Bool
  EnabledSet : Bool
deriving DecidableEq, Repr

/-- `IncomingEndpoint.Validate`. -/
def IncomingEndpoint.Validate (e : IncomingEndpoint) : List Str :=
  (if e.Name = [] then [str "name is required"] else [])
  ++ (if e.Path = [] then [str "path is required"]
      else if ¬ (str "/").isPrefixOf e.Path then [str "path must start with /"] else [])
  ++ (if e.Method = [] then [str "method is required"]
      else if e.Method ≠ str "*" ∧ ¬ validMethod e.Method
        then [str "invalid method " ++ e.Method] else [])
  ++ (if e.Responses = []
      then [str "at least one response configuration is required"] else [])
  ++ (e.Responses.flatMap IncomingResponseConfig.Validate)
  ++ (if e.Responses ≠ []
        ∧ |((e.Responses.map IncomingResponseConfig.Share).foldl (· + ·) 0) - 1|
            > (1 : ℚ) / 1000
      then [str "response shares must sum to 1.0"] else [])

/-- `Config`, the state held by the configuration `Manager` (the `viper`
fields are load-time plumbing, not state the claims touch). -/
structure Config where
  Enabled : Bool
  GlobalMultiplier : ℚ
  ConcurrentRequests : ℤ
  LogAllRequests : Bool
  APIPort : ℤ
  AuthConfigs : List (Str × AuthConfig)
  Endpoints : List Endpoint
  IncomingEnabled : Bool
  IncomingRoutes : List IncomingEndpoint
deriving DecidableEq, Repr

/-! ### Normalization (`normalizeEndpoints` / `normalizeIncomingRoutes`) -/

/-- Auth resolution with the load-time fallback: on error the endpoint gets
`&AuthConfig{Type: AuthTypeNone}` (a warning is logged, not an error). -/
def resolveOrNone (auth : AuthValue) (configs : List (Str × AuthConfig)) : AuthConfig :=
  match ResolveEndpointAuth auth configs with
  | .ok a => a
  | .error _ => noneAuth

/-- The per-endpoint body of `Manager.normalizeEndpoints`: default
`timeout=30`, `method=GET`, `enabled=true` when not explicitly set,
`auth=nil -> "none"`, then resolve `auth` into `resolved_auth`. -/
def normalizeEndpoint (configs : List (Str × AuthConfig)) (e : Endpoint) : Endpoint :=
  let timeout := if e.Timeout = 0 then 30 else e.Timeout
  let method := if e.Method = [] then str "GET" else e.Method
  let enabled := if e.Enabled = false ∧ e.EnabledSet = false then true else e.Enabled
  let auth := if e.Auth = .nullv then .strv AuthTypeNone else e.Auth
  { e with Timeout := timeout, Method := method, Enabled := enabled, Auth := auth,
           ResolvedAuth := some (resolveOrNone auth configs) }

/-- `Manager.normalizeEndpoints`. -/
def normalizeEndpoints (c : Config) : Config :=
  { c with Endpoints := c.Endpoints.map (normalizeEndpoint c.AuthConfigs) }

/-- The per-route body of `Manager.normalizeIncomingRoutes`. -/
def normalizeIncomingRoute (r : IncomingEndpoint) : IncomingEndpoint :=
  let method := if r.Method = [] then str "GET" else r.Method
  let enabled := if r.Enabled = false ∧ r.EnabledSet = false then true else r.Enabled
  { r with Method := method, Enabled := enabled }

/-- `Manager.normalizeIncomingRoutes`. -/
def normalizeIncomingRoutes (c : Config) : Config :=
  { c with IncomingRoutes := c.IncomingRoutes.map normalizeIncomingRoute }

/-- The normalization performed on load and on `ReplaceConfig`:
`normalizeEndpoints` then `normalizeIncomingRoutes`. -/
def normalizeConfig (c : Config) : Config :=
  normalizeIncomingRoutes (normalizeEndpoints c)

lemma normalizeEndpoint_idem (configs : List (Str × AuthConfig)) (e : Endpoint) :
    normalizeEndpoint configs (normalizeEndpoint configs e) = normalizeEndpoint configs e := by
  rw [normalizeEndpoint, normalizeEndpoint]
  by_cases ht : e.Timeout = 0 <;>
    by_cases hm : e.Method = [] <;>
      by_cases ha : e.Auth = AuthValue.nullv <;>
        by_cases he : e.Enabled = false ∧ e.EnabledSet = false <;>
          simp_all

lemma normalizeIncomingRoute_idem (r : IncomingEndpoint) :
    normalizeIncomingRoute (normalizeIncomingRoute r) = normalizeIncomingRoute r := by
  rw [normalizeIncomingRoute, normalizeIncomingRoute]
  by_cases hm : r.Method = [] <;>
    by_cases he : r.Enabled = false ∧ r.EnabledSet = false <;>
      simp_all

/-- C8. Config normalization is idempotent. -/
theorem config_normalize_idempotent (c : Config) :
    normalizeConfig (normalizeConfig c) = normalizeConfig c := by
  rw [normalizeConfig, normalizeConfig, normalizeIncomingRoutes, normalizeIncomingRoutes,
    normalizeEndpoints, normalizeEndpoints]
  simp only [List.map_map]
  congr 1
  · exact List.map_congr_left (fun e _ => normalizeEndpoint_idem _ e)
  · exact List.map_congr_left (fun r _ => normalizeIncomingRoute_idem r)

/-! ### Store mutations (`Manager` methods); each returns the post-call
store together with the returned error, mirroring the in-place Go methods. -/

/-- `Manager.AddEndpoint`. -/
def AddEndpoint (c : Config) (endpoint : Endpoint) : Config × Option Str :=
  if c.Endpoints.any (fun ep => ep.Name = endpoint.Name) then
    (c, some (str "endpoint already exists: " ++ endpoint.Name))
  else
    let endpoint := if endpoint.Timeout = 0 then { endpoint with Timeout := 30 } else endpoint
    let endpoint :=
      if endpoint.Auth = .nullv then { endpoint with Auth := .strv AuthTypeNone } else endpoint
    let endpoint :=
      if endpoint.Method = [] then { endpoint with Method := str "GET" } else endpoint
    match ResolveEndpointAuth endpoint.Auth c.AuthConfigs with
    | .error e => (c, some (str "failed to resolve auth: " ++ e))
    | .ok resolvedAuth =>
      let endpoint := { endpoint with ResolvedAuth := some resolvedAuth }
      if endpoint.Validate ≠ [] then (c, some (str "validation failed"))
      else ({ c with Endpoints := c.Endpoints ++ [endpoint] }, none)

/-- `Manager.UpdateEndpoint`. -/
def UpdateEndpoint (c : Config) (name : Str) (endpoint : Endpoint) : Config × Option Str :=
  match c.Endpoints.findIdx? (fun ep => ep.Name = name) with
  | none => (c, some (str "endpoint not found: " ++ name))
  | some i =>
    if endpoint.Name ≠ name
        ∧ c.Endpoints.enum.any (fun jep => jep.2.Name = endpoint.Name ∧ jep.1 ≠ i) then
      (c, some (str "endpoint with name already exists: " ++ endpoint.Name))
    else
      let endpoint :=
        if endpoint.Timeout = 0 then { endpoint with Timeout := 30 } else endpoint
      let endpoint :=
        if endpoint.Auth = .nullv then { endpoint with Auth := .strv AuthTypeNone } else endpoint
      let endpoint :=
        if endpoint.Method = [] then { endpoint with Method := str "GET" } else endpoint
      match ResolveEndpointAuth endpoint.Auth c.AuthConfigs with
      | .error e => (c, some (str "failed to resolve auth: " ++ e))
      | .ok resolvedAuth =>
        let endpoint := { endpoint with ResolvedAuth := some resolvedAuth }
        if endpoint.Validate ≠ [] then (c, some (str "validation failed"))
        else ({ c with Endpoints := c.Endpoints.set i endpoint }, none)

/-- `Manager.DeleteEndpoint`. -/
def DeleteEndpoint (c : Config) (name : Str) : Config × Option Str :=
  match c.Endpoints.findIdx? (fun ep => ep.Name = name) with
  | none => (c, some (str "endpoint not found: " ++ name))
  | some i => ({ c with Endpoints := c.Endpoints.eraseIdx i }, none)

/-- `Manager.AddAuthConfig`. -/
def AddAuthConfig (c : Config) (authCfg : AuthConfig) : Config × Option Str :=
  if authCfg.Name = [] then (c, some (str "auth config name is required"))
  else if (lookupA c.AuthConfigs authCfg.Name).isSome then
    (c, some (str "auth config already exists: " ++ authCfg.Name))
  else if authCfg.Validate ≠ [] then (c, some (str "validation failed"))
  else ({ c with AuthConfigs := c.AuthConfigs ++ [(authCfg.Name, authCfg)] }, none)

/-- `Manager.UpdateAuthConfig`.  Note the Go method deletes the old entry
when renaming *before* validating the new value. -/
def UpdateAuthConfig (c : Config) (name : Str) (authCfg : AuthConfig) : Config × Option Str :=
  if (lookupA c.AuthConfigs name).isNone then
    (c, some (str "auth config not found: " ++ name))
  else if authCfg.Name ≠ name ∧ (lookupA c.AuthConfigs authCfg.Name).isSome then
    (c, some (str "auth config with name already exists: " ++ authCfg.Name))
  else
    let c₁ := if authCfg.Name ≠ name
      then { c with AuthConfigs := removeA c.AuthConfigs name } else c
    if authCfg.Validate ≠ [] then (c₁, some (str "validation failed"))
    else ({ c₁ with AuthConfigs := insertA c₁.AuthConfigs authCfg.Name authCfg }, none)

/-- `Manager.DeleteAuthConfig`: refuse only when some endpoint's `auth`
field is the *plain string* `name`. -/
def DeleteAuthConfig (c : Config) (name : Str) : Config × Option Str :=
  if (lookupA c.AuthConfigs name).isNone then
    (c, some (str "auth config not found: " ++ name))
  else
    match c.Endpoints.find? (fun ep => ep.Auth = .strv name) with
    | some ep => (c, some (str "cannot delete auth config: used by endpoint " ++ ep.Name))
    | none => ({ c with AuthConfigs := removeA c.AuthConfigs name }, none)

/-- `Manager.AddIncomingRoute`. -/
def AddIncomingRoute (c : Config) (route : IncomingEndpoint) : Config × Option Str :=
  if c.IncomingRoutes.any (fun r => r.Name = route.Name) then
    (c, some (str "incoming route already exists: " ++ route.Name))
  else
    let route := if route.Method = [] then { route with Method := str "GET" } else route
    if route.Validate ≠ [] then (c, some (str "validation failed"))
    else ({ c with IncomingRoutes := c.IncomingRoutes ++ [route] }, none)

/-- `Manager.UpdateIncomingRoute`. -/
def UpdateIncomingRoute (c : Config) (name : Str) (route : IncomingEndpoint) :
    Config × Option Str :=
  match c.IncomingRoutes.findIdx? (fun r => r.Name = name) with
  | none => (c, some (str "incoming route not found: " ++ name))
  | some i =>
    if route.Name ≠ name
        ∧ c.IncomingRoutes.enum.any (fun jr => jr.2.Name = route.Name ∧ jr.1 ≠ i) then
      (c, some (str "incoming route with name already exists: " ++ route.Name))
    else
      let route := if route.Method = [] then { route with Method := str "GET" } else route
      if route.Validate ≠ [] then (c, some (str "validation failed"))
      else ({ c with IncomingRoutes := c.IncomingRoutes.set i route }, none)

/-- `Manager.DeleteIncomingRoute`. -/
def DeleteIncomingRoute (c : Config) (name : Str) : Config × Option Str :=
  match c.IncomingRoutes.findIdx? (fun r => r.Name = name) with
  | none => (c, some (str "incoming route not found: " ++ name))
  | some i => ({ c with IncomingRoutes := c.IncomingRoutes.eraseIdx i }, none)

/-- `Manager.ReplaceConfig`: apply defaults, rename auth configs from their
map keys, swap, normalize.  The only error is a nil candidate; the
candidate is *not* validated. -/
def ReplaceConfig (c : Config) (newCfg : Option Config) : Config × Option Str :=
  match newCfg with
  | none => (c, some (str "config cannot be nil"))
  | some n =>
    let n := if n.ConcurrentRequests ≤ 0 then { n with ConcurrentRequests := 30 } else n
    let n := if n.APIPort ≤ 0 then { n with APIPort := 8080 } else n
    let n := if n.GlobalMultiplier = 0 then { n with GlobalMultiplier := 1 } else n
    let n := { n with AuthConfigs := n.AuthConfigs.map (fun kv => (kv.1, { kv.2 with Name := kv.1 })) }
    (normalizeConfig n, none)

/-- The duplicate-tracking loop inside `Manager.Validate`. -/
def validateEndpointsLoop : List Str → List Endpoint → List Str
  | _, [] => []
  | seen, ep :: rest =>
    (if seen.contains ep.Name then [str "duplicate endpoint name: " ++ ep.Name] else [])
      ++ ep.Validate ++ validateEndpointsLoop (seen ++ [ep.Name]) rest

/-- `Manager.Validate`: the whole-configuration validation. -/
def ConfigValidate (c : Config) : List Str :=
  (if c.GlobalMultiplier < 0 then [str "global_multiplier must be non-negative"] else [])
  ++ (if c.ConcurrentRequests ≤ 0 then [str "concurrent_requests must be positive"] else [])
  ++ (if c.Endpoints = [] then [str "at least one endpoint must be defined"] else [])
  ++ validateEndpointsLoop [] c.Endpoints

/-- The configuration mutations of the claim, as one operation type. -/
inductive Mutation where
  | addEndpoint (e : Endpoint)
  | updateEndpoint (name : Str) (e : Endpoint)
  | deleteEndpoint (name : Str)
  | addAuthConfig (a : AuthConfig)
  | updateAuthConfig (name : Str) (a : AuthConfig)
  | deleteAuthConfig (name : Str)
  | addIncomingRoute (r : IncomingEndpoint)
  | updateIncomingRoute (name : Str) (r : IncomingEndpoint)
  | deleteIncomingRoute (name : Str)
  | replaceAll (newCfg : Option Config)
deriving DecidableEq

/-- Dispatch a mutation to the store operation it denotes. -/
def applyMutation (m : Mutation) (c : Config) : Config × Option Str :=
  match m with
  | .addEndpoint e => AddEndpoint c e
  | .updateEndpoint name e => UpdateEndpoint c name e
  | .deleteEndpoint name => DeleteEndpoint c name
  | .addAuthConfig a => AddAuthConfig c a
  | .updateAuthConfig name a => UpdateAuthConfig c name a
  | .deleteAuthConfig name => DeleteAuthConfig c name
  | .addIncomingRoute r => AddIncomingRoute c r
  | .updateIncomingRoute name r => UpdateIncomingRoute c name r
  | .deleteIncomingRoute name => DeleteIncomingRoute c name
  | .replaceAll newCfg => ReplaceConfig c newCfg

/-- The single mutation whose error path can change the store:
`UpdateAuthConfig` renaming to a config that fails validation. -/
def Mutation.renameInvalidAuth : Mutation → Bool
  | .updateAuthConfig name a => decide (a.Name ≠ name) && decide (a.Validate ≠ [])
  | _ => false

/-- C2 (amended). Every mutation except an `UpdateAuthConfig` that renames
to a config failing validation leaves the store unchanged whenever it
returns an error. -/
theorem configStore_error_preserves (m : Mutation) (c : Config)
    (hex : m.renameInvalidAuth = false)
    (h : (applyMutation m c).2 ≠ none) : (applyMutation m c).1 = c := by
  rcases hE : applyMutation m c with ⟨c2, err⟩
  rw [hE] at h
  simp only at h ⊢
  cases m with
  | updateAuthConfig name a =>
    have hex' : a.Name = name ∨ a.Validate = [] := by
      by_contra hcon
      push_neg at hcon
      rw [Mutation.renameInvalidAuth, decide_eq_true hcon.1, decide_eq_true hcon.2] at hex
      simp at hex
    rw [applyMutation, UpdateAuthConfig] at hE
    split at hE
    · injection hE with h1 h2; exact h1.symm
    · split at hE
      · injection hE with h1 h2; exact h1.symm
      · try dsimp only at hE
        rcases hex' with hname | hval
        · rw [if_neg (show ¬ a.Name ≠ name by simp [hname])] at hE
          split at hE <;> injection hE with h1 h2 <;>
            first
              | exact h1.symm
              | exact absurd h2.symm h
        · rw [if_neg (show ¬ a.Validate ≠ [] by simp [hval])] at hE
          injection hE with h1 h2
          exact absurd h2.symm h
  | replaceAll newCfg =>
    rw [applyMutation, ReplaceConfig.eq_def] at hE
    split at hE <;> injection hE with h1 h2 <;>
      first
        | exact h1.symm
        | exact absurd h2.symm h
  | _ =>
    rw [applyMutation] at hE
    first
      | rw [AddEndpoint] at hE
      | rw [UpdateEndpoint] at hE
      | rw [DeleteEndpoint] at hE
      | rw [AddAuthConfig] at hE
      | rw [DeleteAuthConfig] at hE
      | rw [AddIncomingRoute] at hE
      | rw [UpdateIncomingRoute] at hE
      | rw [DeleteIncomingRoute] at hE
    try dsimp only at hE
    repeat' split at hE
    all_goals injection hE with h1 h2
    all_goals
      first
        | exact h1.symm
        | exact absurd h2.symm h

/-! ### Concrete sample configurations -/

/-- A valid bearer auth config named `a`. -/
def authA : AuthConfig :=
  { noneAuth with Name := str "a", «Type» := AuthTypeBearer, EnvVar := str "TOKEN_A" }

/-- An invalid auth config named `b` (unknown type). -/
def authBbad : AuthConfig :=
  { noneAuth with Name := str "b", «Type» := str "bogus" }

/-- A store holding just the auth config `a`. -/
def cfg0 : Config :=
  { Enabled := true, GlobalMultiplier := 1, ConcurrentRequests := 30,
    LogAllRequests := false, APIPort := 8080, AuthConfigs := [(str "a", authA)],
    Endpoints := [], IncomingEnabled := true, IncomingRoutes := [] }

/-- A candidate configuration that fails `Manager.Validate` (negative
multiplier, no endpoints). -/
def badCfg : Config := { cfg0 with GlobalMultiplier := -1, AuthConfigs := [] }

/-- Witness for C2: a failing `DeleteEndpoint` (endpoint not found) leaves
the concrete store `cfg0` unchanged. -/
theorem configStore_error_preserves_witness :
    (applyMutation (.deleteEndpoint (str "x")) cfg0).1 = cfg0 :=
  configStore_error_preserves (.deleteEndpoint (str "x")) cfg0 (by decide) (by decide)

/-- C2 counterexample: (i) `UpdateAuthConfig "a"` with an invalid config
named `b` returns an error yet deletes the entry `a`; (ii) `ReplaceConfig`
accepts (and swaps in) a candidate that fails `Manager.Validate`. -/
theorem configStore_error_mutates_counterexample :
    ((applyMutation (.updateAuthConfig (str "a") authBbad) cfg0).2 ≠ none
      ∧ (applyMutation (.updateAuthConfig (str "a") authBbad) cfg0).1 ≠ cfg0)
    ∧ ((applyMutation (.replaceAll (some badCfg)) cfg0).2 = none
      ∧ ConfigValidate badCfg ≠ []
      ∧ (applyMutation (.replaceAll (some badCfg)) cfg0).1 ≠ cfg0) := by
  decide

/-- C3 (amended). For an existing auth config, `DeleteAuthConfig` succeeds
iff no endpoint references it *as a plain string*; on refusal the store is
unchanged.  (Inline `{ref: name}` descriptors do not block deletion.) -/
theorem deleteAuthConfig_plain_string_only (c : Config) (name : Str)
    (hmem : (lookupA c.AuthConfigs name).isSome) :
    ((DeleteAuthConfig c name).2 = none ↔ ∀ ep ∈ c.Endpoints, ep.Auth ≠ .strv name)
    ∧ ((DeleteAuthConfig c name).2 ≠ none → (DeleteAuthConfig c name).1 = c) := by
  rcases hl : lookupA c.AuthConfigs name with _ | a
  · rw [hl] at hmem; exact absurd hmem (by decide)
  · have hnn : ¬ ((lookupA c.AuthConfigs name).isNone = true) := by rw [hl]; simp
    rcases hf : c.Endpoints.find? (fun ep => ep.Auth = .strv name) with _ | ep
    · have hD : DeleteAuthConfig c name
          = ({ c with AuthConfigs := removeA c.AuthConfigs name }, none) := by
        rw [DeleteAuthConfig, if_neg hnn, hf]
      rw [hD]
      constructor
      · refine ⟨fun _ ep hep hauth => ?_, fun _ => rfl⟩
        have hne := List.find?_eq_none.mp hf ep hep
        simp [hauth] at hne
      · intro hcontra
        exact absurd rfl hcontra
    · have hD : DeleteAuthConfig c name
          = (c, some (str "cannot delete auth config: used by endpoint " ++ ep.Name)) := by
        rw [DeleteAuthConfig, if_neg hnn, hf]
      rw [hD]
      constructor
      · refine iff_of_false (by simp) ?_
        intro hall
        have hp := List.find?_some hf
        have hmem' := List.mem_of_find?_eq_some hf
        exact hall ep hmem' (by simpa using hp)
      · intro _
        rfl

/-- A concrete endpoint referencing auth `a` by plain string. -/
def epRef : Endpoint :=
  { Name := str "e1", Method := str "GET", URLTemplate := str "http://x",
    ConfigPath := [], FrequencyPerMin := 1, Auth := .strv (str "a"),
    ResolvedAuth := some authA, Headers := [], Body := none, Timeout := 30,
    Enabled := true, EnabledSet := true }

/-- A concrete endpoint referencing auth `a` through an inline
`{ref: "a"}` descriptor. -/
def epInline : Endpoint :=
  { epRef with
    Name := str "e2"
    Auth := .mapv (some (str "a")) none none none none none none }

/-- `cfg0` plus an endpoint referencing `a` by plain string. -/
def cfg1 : Config := { cfg0 with Endpoints := [epRef] }

/-- `cfg0` plus an endpoint referencing `a` only through an inline
descriptor. -/
def cfg2 : Config := { cfg0 with Endpoints := [epInline] }

/-- Witness for C3 at the concrete store `cfg1`. -/
theorem deleteAuthConfig_plain_string_only_witness :
    ((DeleteAuthConfig cfg1 (str "a")).2 = none
      ↔ ∀ ep ∈ cfg1.Endpoints, ep.Auth ≠ .strv (str "a"))
    ∧ ((DeleteAuthConfig cfg1 (str "a")).2 ≠ none
      → (DeleteAuthConfig cfg1 (str "a")).1 = cfg1) :=
  deleteAuthConfig_plain_string_only cfg1 (str "a") (by decide)

/-- C3 counterexample: deleting auth `a` succeeds (and removes the entry)
although endpoint `e2` references it via an inline `{ref: "a"}`. -/
theorem deleteAuthConfig_inline_counterexample :
    (DeleteAuthConfig cfg2 (str "a")).2 = none
      ∧ (DeleteAuthConfig cfg2 (str "a")).1 ≠ cfg2 := by
  decide

/-! ### Incoming-route matching (`Manager.MatchIncomingRoute`) -/

/-- One route's match test, in the order the Go loop checks it: enabled,
method (`*` or equal), path prefix, and path-boundary (empty remainder or
remainder starting with `/`).  The remainder is `TrimPrefix`, i.e. `drop`
of the prefix length. -/
def routeMatches (route : IncomingEndpoint) (path method : Str) : Bool :=
  route.Enabled
    && (decide (route.Method = str "*") || decide (route.Method = method))
    && route.Path.isPrefixOf path
    && ((path.drop route.Path.length).isEmpty
        || (str "/").isPrefixOf (path.drop route.Path.length))

/-- Routes ordered by path length descending (`sort.Slice` with
`len(path_i) > len(path_j)`). -/
def routeLenGE (a b : IncomingEndpoint) : Prop := b.Path.length ≤ a.Path.length

instance : DecidableRel routeLenGE := fun a b => Nat.decLe b.Path.length a.Path.length

instance : IsTotal IncomingEndpoint routeLenGE :=
  ⟨fun a b => Nat.le_total b.Path.length a.Path.length⟩

instance : IsTrans IncomingEndpoint routeLenGE :=
  ⟨fun _ _ _ hab hbc => le_trans hbc hab⟩

/-- The sorted copy built by `MatchIncomingRoute` (any sort by this
relation; Go's sort is unstable, ties are broken arbitrarily there and
stably here). -/
def sortRoutes (routes : List IncomingEndpoint) : List IncomingEndpoint :=
  routes.insertionSort routeLenGE

/-- The scan over sorted routes: first match wins. -/
def findRouteMatch : List IncomingEndpoint → Str → Str → Option (IncomingEndpoint × Str)
  | [], _, _ => none
  | route :: rest, path, method =>
    if routeMatches route path method then some (route, path.drop route.Path.length)
    else findRouteMatch rest path method

/-- `Manager.MatchIncomingRoute`: no match when `incoming_enabled` is
false, else the first match over the length-sorted routes. -/
def MatchIncomingRoute (c : Config) (path method : Str) :
    Option (IncomingEndpoint × Str) :=
  if c.IncomingEnabled then findRouteMatch (sortRoutes c.IncomingRoutes) path method
  else none

lemma routeMatches_append_drop {r : IncomingEndpoint} {path method : Str}
    (h : routeMatches r path method = true) :
    r.Path ++ path.drop r.Path.length = path := by
  rw [routeMatches] at h
  simp only [Bool.and_eq_true] at h
  exact List.prefix_iff_eq_append.mp (List.isPrefixOf_iff_prefix.mp h.1.2)

lemma findRouteMatch_isSome_iff (l : List IncomingEndpoint) (path method : Str) :
    (findRouteMatch l path method).isSome = true
      ↔ ∃ r ∈ l, routeMatches r path method = true := by
  induction l with
  | nil => simp [findRouteMatch]
  | cons a l ih =>
    rw [findRouteMatch]
    by_cases h : routeMatches a path method = true
    · simp [h]
    · rw [if_neg h, ih]
      constructor
      · rintro ⟨r, hr, hm⟩
        exact ⟨r, List.mem_cons_of_mem _ hr, hm⟩
      · rintro ⟨r, hr, hm⟩
        rcases List.mem_cons.mp hr with rfl | hr
        · exact absurd hm h
        · exact ⟨r, hr, hm⟩

lemma findRouteMatch_eq_some {l : List IncomingEndpoint} {path method : Str}
    {r : IncomingEndpoint} {suf : Str}
    (h : findRouteMatch l path method = some (r, suf)) :
    r ∈ l ∧ routeMatches r path method = true ∧ suf = path.drop r.Path.length := by
  induction l with
  | nil => simp [findRouteMatch] at h
  | cons a l ih =>
    rw [findRouteMatch] at h
    by_cases ha : routeMatches a path method = true
    · rw [if_pos ha] at h
      injection h with hpair
      injection hpair with h1 h2
      subst h1
      exact ⟨List.mem_cons_self _ _, ha, h2.symm⟩
    · rw [if_neg ha] at h
      obtain ⟨hmem, hm, hs⟩ := ih h
      exact ⟨List.mem_cons_of_mem _ hmem, hm, hs⟩

lemma findRouteMatch_longest {l : List IncomingEndpoint} {path method : Str}
    {r : IncomingEndpoint} {suf : Str}
    (hp : l.Pairwise routeLenGE)
    (h : findRouteMatch l path method = some (r, suf)) :
    ∀ r2 ∈ l, routeMatches r2 path method = true → r2.Path.length ≤ r.Path.length := by
  induction l with
  | nil => simp [findRouteMatch] at h
  | cons a l ih =>
    intro r2 hr2 hm2
    rw [findRouteMatch] at h
    rw [List.pairwise_cons] at hp
    by_cases ha : routeMatches a path method = true
    · rw [if_pos ha] at h
      injection h with hpair
      injection hpair with h1 _
      subst h1
      rcases List.mem_cons.mp hr2 with rfl | hr2
      · exact le_refl _
      · exact hp.1 r2 hr2
    · rw [if_neg ha] at h
      rcases List.mem_cons.mp hr2 with rfl | hr2
      · exact absurd hm2 ha
      · exact ih hp.2 h r2 hr2 hm2

/-- A 200-always response. -/
def respOK : IncomingResponseConfig :=
  { StatusCode := 200, Share := 1, MinResponseMs := 0, MaxResponseMs := 0 }

/-- The enabled route `/a` (any method). -/
def routeA : IncomingEndpoint :=
  { Name := str "ra", Path := str "/a", Method := str "*",
    Responses := [respOK], Enabled := true, EnabledSet := true }

/-- The enabled route `/a/b` (any method). -/
def routeAB : IncomingEndpoint :=
  { Name := str "rab", Path := str "/a/b", Method := str "*",
    Responses := [respOK], Enabled := true, EnabledSet := true }

/-- A store with incoming enabled and the routes `/a` and `/a/b`. -/
def cfgRoutes : Config := { cfg0 with IncomingRoutes := [routeA, routeAB] }

/-- C4. `MatchIncomingRoute` returns a match iff `incoming_enabled` holds
and some route matches; the returned route matches with the longest path
among all matching routes and the returned suffix is the remainder after
the matched prefix; and on routes `/a`, `/a/b`: `/a/b/c` matches `/a/b`
with suffix `/c` while `/a/x` matches `/a` with suffix `/x`. -/
theorem matchIncomingRoute_spec :
    (∀ (c : Config) (path method : Str),
      (MatchIncomingRoute c path method).isSome = true
        ↔ (c.IncomingEnabled = true
            ∧ ∃ r ∈ c.IncomingRoutes, routeMatches r path method = true))
    ∧ (∀ (c : Config) (path method : Str) (r : IncomingEndpoint) (suf : Str),
        MatchIncomingRoute c path method = some (r, suf) →
        routeMatches r path method = true ∧ r.Path ++ suf = path
          ∧ ∀ r2 ∈ c.IncomingRoutes, routeMatches r2 path method = true
              → r2.Path.length ≤ r.Path.length)
    ∧ ((MatchIncomingRoute cfgRoutes (str "/a/b/c") (str "GET")).map
        (fun m => (m.1.Path, m.2)) = some (str "/a/b", str "/c"))
    ∧ ((MatchIncomingRoute cfgRoutes (str "/a/x") (str "GET")).map
        (fun m => (m.1.Path, m.2)) = some (str "/a", str "/x")) := by
  refine ⟨?_, ?_, by decide, by decide⟩
  · intro c path method
    rw [MatchIncomingRoute]
    by_cases hin : c.IncomingEnabled = true
    · rw [if_pos hin, findRouteMatch_isSome_iff]
      have hperm : List.Perm (sortRoutes c.IncomingRoutes) c.IncomingRoutes :=
        List.perm_insertionSort _ _
      constructor
      · rintro ⟨r, hr, hm⟩
        exact ⟨hin, r, hperm.mem_iff.mp hr, hm⟩
      · rintro ⟨_, r, hr, hm⟩
        exact ⟨r, hperm.mem_iff.mpr hr, hm⟩
    · rw [if_neg hin]
      simp only [Option.isSome_none, Bool.false_eq_true, false_iff]
      rintro ⟨h1, _⟩
      exact hin h1
  · intro c path method r suf h
    rw [MatchIncomingRoute] at h
    by_cases hin : c.IncomingEnabled = true
    · rw [if_pos hin] at h
      obtain ⟨_, hm, hs⟩ := findRouteMatch_eq_some h
      have hperm : List.Perm (sortRoutes c.IncomingRoutes) c.IncomingRoutes :=
        List.perm_insertionSort _ _
      refine ⟨hm, ?_, ?_⟩
      · rw [hs]; exact routeMatches_append_drop hm
      · intro r2 hr2 hm2
        have hsorted : (sortRoutes c.IncomingRoutes).Pairwise routeLenGE :=
          List.sorted_insertionSort routeLenGE c.IncomingRoutes
        exact findRouteMatch_longest hsorted h r2 (hperm.mem_iff.mpr hr2) hm2
    · rw [if_neg hin] at h
      exact Option.noConfusion h

/-- Witness for C4 at the concrete match of `/a/b/c` against routes
`/a`, `/a/b`. -/
theorem matchIncomingRoute_spec_witness :
    routeMatches routeAB (str "/a/b/c") (str "GET") = true
      ∧ routeAB.Path ++ str "/c" = str "/a/b/c"
      ∧ ∀ r2 ∈ cfgRoutes.IncomingRoutes,
          routeMatches r2 (str "/a/b/c") (str "GET") = true
            → r2.Path.length ≤ routeAB.Path.length :=
  matchIncomingRoute_spec.2.1 cfgRoutes (str "/a/b/c") (str "GET") routeAB (str "/c")
    (by decide)

/-! ## Token manager (`internal/client/token_manager.go`) -/

/-- `ManagedToken`; times are integer timestamps. -/
structure ManagedToken where
  Value : Str
  ExpiresAt : ℤ
  RefreshAt : ℤ
  LastRefresh : ℤ
  LastError : Option Str
  ErrorCount : ℕ
deriving DecidableEq, Repr

/-- Go's `map[string]*ManagedToken`, as a lookup function. -/
abbrev TokensMap := Str → Option ManagedToken

/-- Map update (`tm.tokens[authName] = newToken`). -/
def insertToken (m : TokensMap) (k : Str) (v : ManagedToken) : TokensMap :=
  fun x => if x = k then some v else m x

/-- The outcome of one `fetchToken` attempt: the HTTP fetch is an external
effect, abstracted as its result — the token string and absolute expiry on
success, the error text on failure. -/
abbrev FetchOutcome := Except Str (Str × ℤ)

/-- The retry loop's effective result: the first successful attempt, if
any (later attempts are not executed after a success). -/
def firstSuccess : List FetchOutcome → Option (Str × ℤ)
  | [] => none
  | .ok v :: _ => some v
  | .error _ :: rest => firstSuccess rest

/-- `lastErr` as it stands after the loop when every attempt failed: the
last attempt's error. -/
def lastErrorOf (attempts : List FetchOutcome) : Str :=
  match attempts.getLast? with
  | some (.error e) => e
  | _ => []

/-- The body of `refreshToken` after the freshness re-check: run the
attempts; on success store the new token (with
`refresh_at = expires_at − refresh_before_expiry`, defaulting 60); on
total failure keep and serve the existing token, bumping `error_count`
and setting `last_error`, or surface the error if none exists. -/
def refreshStore (tokens : TokensMap) (authName : Str) (cfg : AuthConfig) (now : ℤ)
    (attempts : List FetchOutcome) : TokensMap × Except Str Str :=
  match firstSuccess attempts with
  | some (tokenValue, expiresAt) =>
    let refreshBeforeExpiry := if cfg.RefreshBeforeExpiry = 0 then 60 else cfg.RefreshBeforeExpiry
    (insertToken tokens authName
      { Value := tokenValue, ExpiresAt := expiresAt,
        RefreshAt := expiresAt - refreshBeforeExpiry, LastRefresh := now,
        LastError := none, ErrorCount := 0 },
     .ok tokenValue)
  | none =>
    match tokens authName with
    | some existingToken =>
      (insertToken tokens authName
        { existingToken with
          LastError := some (lastErrorOf attempts),
          ErrorCount := existingToken.ErrorCount + 1 },
       .ok existingToken.Value)
    | none =>
      (tokens, .error (str "failed to refresh token after 3 retries: " ++ lastErrorOf attempts))

/-- `TokenManager.refreshToken`: under the lock, re-check freshness (a
concurrent refresh may have completed), then run the retry loop. -/
def refreshToken (tokens : TokensMap) (authName : Str) (cfg : AuthConfig) (now : ℤ)
    (attempts : List FetchOutcome) : TokensMap × Except Str Str :=
  match tokens authName with
  | some token =>
    if now < token.RefreshAt then (tokens, .ok token.Value)
    else refreshStore tokens authName cfg now attempts
  | none => refreshStore tokens authName cfg now attempts

lemma firstSuccess_of_all_fail (l : List FetchOutcome)
    (h : l.all (fun a => a.toOption.isNone) = true) : firstSuccess l = none := by
  induction l with
  | nil => rfl
  | cons a l ih =>
    rw [List.all_cons, Bool.and_eq_true] at h
    cases a with
    | ok v => simp [Except.toOption] at h
    | error e => rw [firstSuccess]; exact ih h.2

/-- C5. If every attempt of a refresh fails and a stale token exists (and
is due for refresh, so the loop actually runs), `refreshToken` returns the
stale value with no error, incrementing `error_count` and setting
`last_error`; with no prior token the error is surfaced. -/
theorem refreshToken_stale_fallback
    (tokens : TokensMap) (authName : Str) (cfg : AuthConfig) (now : ℤ)
    (attempts : List FetchOutcome)
    (hfail : attempts.all (fun a => a.toOption.isNone) = true) :
    (∀ t, tokens authName = some t → ¬ now < t.RefreshAt →
      (refreshToken tokens authName cfg now attempts).2 = .ok t.Value
        ∧ (refreshToken tokens authName cfg now attempts).1 authName
            = some { t with LastError := some (lastErrorOf attempts),
                            ErrorCount := t.ErrorCount + 1 })
    ∧ (tokens authName = none →
        (refreshToken tokens authName cfg now attempts).2
          = .error (str "failed to refresh token after 3 retries: " ++ lastErrorOf attempts)) := by
  have hfs := firstSuccess_of_all_fail attempts hfail
  constructor
  · intro t ht hlt
    have h1 : refreshToken tokens authName cfg now attempts
        = refreshStore tokens authName cfg now attempts := by
      simp only [refreshToken.eq_def, ht, if_neg hlt]
    have h2 : refreshStore tokens authName cfg now attempts
        = (insertToken tokens authName
            { t with LastError := some (lastErrorOf attempts),
                     ErrorCount := t.ErrorCount + 1 },
           .ok t.Value) := by
      simp only [refreshStore.eq_def, hfs, ht]
    rw [h1, h2]
    exact ⟨rfl, by simp [insertToken]⟩
  · intro ht
    have h1 : refreshToken tokens authName cfg now attempts
        = refreshStore tokens authName cfg now attempts := by
      simp only [refreshToken.eq_def, ht]
    have h2 : refreshStore tokens authName cfg now attempts
        = (tokens, .error (str "failed to refresh token after 3 retries: "
            ++ lastErrorOf attempts)) := by
      simp only [refreshStore.eq_def, hfs, ht]
    rw [h1, h2]

/-- The stored token `T1`, due for refresh at time 40. -/
def tokenT1 : ManagedToken :=
  { Value := str "T1", ExpiresAt := 100, RefreshAt := 40, LastRefresh := 0,
    LastError := none, ErrorCount := 0 }

/-- A token map holding `T1` under auth name `a`. -/
def tokensW : TokensMap := fun k => if k = str "a" then some tokenT1 else none

/-- Four failed fetch attempts (the endpoint now returns 500). -/
def failedAttempts : List FetchOutcome :=
  [.error (str "500"), .error (str "500"), .error (str "500"), .error (str "500")]

/-- Witness for C5: at time 50 (past `refresh_at = 40`) with all four
attempts failing, the stale `T1` is served and `error_count` becomes 1. -/
theorem refreshToken_stale_fallback_witness :
    (refreshToken tokensW (str "a") authA 50 failedAttempts).2 = .ok (str "T1")
      ∧ (refreshToken tokensW (str "a") authA 50 failedAttempts).1 (str "a")
          = some { tokenT1 with LastError := some (str "500"), ErrorCount := 1 } := by
  have h := (refreshToken_stale_fallback tokensW (str "a") authA 50 failedAttempts
    (by decide)).1 tokenT1 (by rw [tokensW]; decide) (by decide)
  refine ⟨h.1, ?_⟩
  rw [h.2]
  decide

/-! ## Scheduler result post-processing (`Scheduler.executeRequest`,
`Scheduler.EmergencyStop`) -/

/-- `RequestResult` from the client package. -/
structure RequestResult where
  EndpointName : Str
  URL : Str
  Method : Str
  StatusCode : ℤ
  Success : Bool
  Error : Str
  ErrorType : Str
  TotalTimeMs : ℚ
  DNSTimeMs : ℚ
  ConnectTimeMs : ℚ
  TLSTimeMs : ℚ
  TimeToFirstByte : ℚ
  Hostname : Str
  ResponseSize : ℤ
  RequestTimestamp : ℤ
deriving DecidableEq, Repr

/-- The two flags `executeRequest` consults at completion: the scheduler's
atomic `paused` and the config manager's master `enabled`. -/
structure SchedulerFlags where
  paused : Bool
  enabled : Bool
deriving DecidableEq, Repr

/-- The rewrite at the end of `executeRequest`: a `cancelled` result is
relabelled `timeout` exactly when the scheduler is not paused and the
master switch is on (then the cancellation was the per-request deadline,
not a user stop). -/
def finalizeResult (flags : SchedulerFlags) (result : RequestResult) : RequestResult :=
  if result.ErrorType = str "cancelled" ∧ flags.paused = false ∧ flags.enabled = true then
    { result with ErrorType := str "timeout", Error := str "Request timeout" }
  else result

/-- `Scheduler.EmergencyStop` on the flags: set `paused`, clear the master
`enabled` (it also cancels the in-flight context, which aborts requests —
an effect outside this state). -/
def EmergencyStop (_flags : SchedulerFlags) : SchedulerFlags :=
  { paused := true, enabled := false }

/-- C6. The `cancelled → timeout` rewrite happens iff the scheduler is not
paused and the master switch is on; in every other situation the result is
delivered unchanged, in particular after `EmergencyStop`. -/
theorem scheduler_cancelled_rewrite :
    (∀ (fl : SchedulerFlags) (r : RequestResult),
      r.ErrorType = str "cancelled" → fl.paused = false → fl.enabled = true →
      (finalizeResult fl r).ErrorType = str "timeout"
        ∧ (finalizeResult fl r).Error = str "Request timeout")
    ∧ (∀ (fl : SchedulerFlags) (r : RequestResult),
        fl.paused = true ∨ fl.enabled = false ∨ r.ErrorType ≠ str "cancelled" →
        finalizeResult fl r = r)
    ∧ (∀ (fl : SchedulerFlags) (r : RequestResult),
        finalizeResult (EmergencyStop fl) r = r) := by
  refine ⟨?_, ?_, ?_⟩
  · intro fl r h1 h2 h3
    rw [finalizeResult, if_pos ⟨h1, h2, h3⟩]
    exact ⟨rfl, rfl⟩
  · intro fl r h
    rw [finalizeResult, if_neg]
    rintro ⟨hc, hp, he⟩
    rcases h with h | h | h
    · rw [h] at hp; cases hp
    · rw [h] at he; cases he
    · exact h hc
  · intro fl r
    rw [finalizeResult, if_neg]
    rintro ⟨_, hp, _⟩
    rw [EmergencyStop] at hp
    cases hp

/-- A concrete `cancelled` result. -/
def cancelledResult : RequestResult :=
  { EndpointName := str "e1", URL := [], Method := str "GET", StatusCode := 0,
    Success := false, Error := str "Request cancelled", ErrorType := str "cancelled",
    TotalTimeMs := 0, DNSTimeMs := 0, ConnectTimeMs := 0, TLSTimeMs := 0,
    TimeToFirstByte := 0, Hostname := [], ResponseSize := 0, RequestTimestamp := 0 }

/-- Witness for C6: concretely, a cancelled result is rewritten under a
running scheduler and delivered unchanged after `EmergencyStop`. -/
theorem scheduler_cancelled_rewrite_witness :
    ((finalizeResult { paused := false, enabled := true } cancelledResult).ErrorType
        = str "timeout"
      ∧ (finalizeResult { paused := false, enabled := true } cancelledResult).Error
        = str "Request timeout")
    ∧ finalizeResult (EmergencyStop { paused := false, enabled := true }) cancelledResult
        = cancelledResult :=
  ⟨scheduler_cancelled_rewrite.1 { paused := false, enabled := true } cancelledResult
      (by decide) rfl rfl,
   scheduler_cancelled_rewrite.2.2 { paused := false, enabled := true } cancelledResult⟩

/-! ## Endpoint metrics (`EndpointMetrics`) -/

/-- `RingBuffer.Reset`. -/
def RingBuffer.Reset (rb : RingBuffer) : RingBuffer :=
  { rb with index := 0, size := 0 }

/-- `EndpointMetrics` from the metrics package. -/
structure EndpointMetrics where
  TotalRequests : ℕ
  Successful : ℕ
  Failed : ℕ
  TimeoutErrors : ℕ
  DNSErrors : ℕ
  ConnectionErrors : ℕ
  HTTPErrors : ℕ
  OtherErrors : ℕ
  TotalTimeMs : ℚ
  TotalDNSTimeMs : ℚ
  TotalConnectMs : ℚ
  ResponseTimes : RingBuffer
  DNSTimes : RingBuffer
  LastStatusCode : ℤ
  LastError : Str
  LastSuccess : Option ℤ
  URLPattern : Str
  Hostname : Str
deriving DecidableEq, Repr

/-- `NewEndpointMetrics`. -/
def NewEndpointMetrics (urlPattern hostname : Str) : EndpointMetrics :=
  { TotalRequests := 0, Successful := 0, Failed := 0, TimeoutErrors := 0,
    DNSErrors := 0, ConnectionErrors := 0, HTTPErrors := 0, OtherErrors := 0,
    TotalTimeMs := 0, TotalDNSTimeMs := 0, TotalConnectMs := 0,
    ResponseTimes := NewRingBuffer 1000, DNSTimes := NewRingBuffer 1000,
    LastStatusCode := 0, LastError := [], LastSuccess := none,
    URLPattern := urlPattern, Hostname := hostname }

/-- `EndpointMetrics.RecordSuccess` (`now` is the wall clock read for
`LastSuccess`). -/
def EndpointMetrics.RecordSuccess (em : EndpointMetrics)
    (totalTimeMs dnsTimeMs connectTimeMs : ℚ) (statusCode : ℤ) (now : ℤ) :
    EndpointMetrics :=
  { em with
    TotalRequests := em.TotalRequests + 1
    Successful := em.Successful + 1
    LastStatusCode := statusCode
    LastSuccess := some now
    TotalTimeMs := em.TotalTimeMs + totalTimeMs
    TotalDNSTimeMs := em.TotalDNSTimeMs + dnsTimeMs
    TotalConnectMs := em.TotalConnectMs + connectTimeMs
    ResponseTimes := em.ResponseTimes.Add totalTimeMs
    DNSTimes := if dnsTimeMs > 0 then em.DNSTimes.Add dnsTimeMs else em.DNSTimes }

/-- `EndpointMetrics.RecordFailure`; the `switch errorType` buckets are
mutually exclusive with `default` catching the rest. -/
def EndpointMetrics.RecordFailure (em : EndpointMetrics)
    (totalTimeMs dnsTimeMs connectTimeMs : ℚ) (statusCode : ℤ)
    (errorType errorMsg : Str) : EndpointMetrics :=
  { em with
    TotalRequests := em.TotalRequests + 1
    Failed := em.Failed + 1
    LastStatusCode := statusCode
    LastError := errorMsg
    TotalTimeMs := em.TotalTimeMs + totalTimeMs
    TotalDNSTimeMs := em.TotalDNSTimeMs + dnsTimeMs
    TotalConnectMs := em.TotalConnectMs + connectTimeMs
    ResponseTimes := em.ResponseTimes.Add totalTimeMs
    DNSTimes := if dnsTimeMs > 0 then em.DNSTimes.Add dnsTimeMs else em.DNSTimes
    TimeoutErrors := if errorType = str "timeout" then em.TimeoutErrors + 1
      else em.TimeoutErrors
    DNSErrors := if errorType = str "dns" then em.DNSErrors + 1 else em.DNSErrors
    ConnectionErrors := if errorType = str "connection" then em.ConnectionErrors + 1
      else em.ConnectionErrors
    HTTPErrors := if errorType = str "http" then em.HTTPErrors + 1 else em.HTTPErrors
    OtherErrors := if errorType ≠ str "timeout" ∧ errorType ≠ str "dns"
        ∧ errorType ≠ str "connection" ∧ errorType ≠ str "http"
      then em.OtherErrors + 1 else em.OtherErrors }

/-- `EndpointMetrics.Reset` (`URLPattern` and `Hostname` are kept). -/
def EndpointMetrics.Reset (em : EndpointMetrics) : EndpointMetrics :=
  { em with
    TotalRequests := 0, Successful := 0, Failed := 0, TimeoutErrors := 0,
    DNSErrors := 0, ConnectionErrors := 0, HTTPErrors := 0, OtherErrors := 0,
    TotalTimeMs := 0, TotalDNSTimeMs := 0, TotalConnectMs := 0,
    LastStatusCode := 0, LastError := [], LastSuccess := none,
    ResponseTimes := em.ResponseTimes.Reset, DNSTimes := em.DNSTimes.Reset }

/-- The operations that can reach an `EndpointMetrics` record. -/
inductive MetricsOp where
  | recordSuccess (totalTimeMs dnsTimeMs connectTimeMs : ℚ) (statusCode : ℤ) (now : ℤ)
  | recordFailure (totalTimeMs dnsTimeMs connectTimeMs : ℚ) (statusCode : ℤ)
      (errorType errorMsg : Str)
  | reset

/-- Apply one operation. -/
def applyMetricsOp (em : EndpointMetrics) : MetricsOp → EndpointMetrics
  | .recordSuccess t d c s n => em.RecordSuccess t d c s n
  | .recordFailure t d c s et msg => em.RecordFailure t d c s et msg
  | .reset => em.Reset

lemma metrics_inv_step (op : MetricsOp) (em : EndpointMetrics)
    (h : em.Successful + em.Failed = em.TotalRequests) :
    (applyMetricsOp em op).Successful + (applyMetricsOp em op).Failed
      = (applyMetricsOp em op).TotalRequests := by
  cases op <;>
    simp only [applyMetricsOp, EndpointMetrics.RecordSuccess,
      EndpointMetrics.RecordFailure, EndpointMetrics.Reset] <;>
    omega

lemma metrics_inv_foldl (ops : List MetricsOp) :
    ∀ (em : EndpointMetrics), em.Successful + em.Failed = em.TotalRequests →
    ((ops.foldl applyMetricsOp em).Successful + (ops.foldl applyMetricsOp em).Failed
      = (ops.foldl applyMetricsOp em).TotalRequests) := by
  induction ops with
  | nil => intro em h; exact h
  | cons op ops ih =>
    intro em h
    rw [List.foldl_cons]
    exact ih _ (metrics_inv_step op em h)

/-- C7. Every reachable `EndpointMetrics` state — any sequence of
`RecordSuccess` / `RecordFailure` / `Reset` from a fresh record —
satisfies `successful + failed = total_requests`. -/
theorem endpointMetrics_invariant (urlPattern hostname : Str) (ops : List MetricsOp) :
    (ops.foldl applyMetricsOp (NewEndpointMetrics urlPattern hostname)).Successful
      + (ops.foldl applyMetricsOp (NewEndpointMetrics urlPattern hostname)).Failed
    = (ops.foldl applyMetricsOp (NewEndpointMetrics urlPattern hostname)).TotalRequests :=
  metrics_inv_foldl ops (NewEndpointMetrics urlPattern hostname) rfl

/-! ## Weighted response selection (`selectWeightedResponse`) -/

/-- The cumulative-probability loop of `selectWeightedResponse`. -/
def selectLoop : List IncomingResponseConfig → ℚ → ℚ → Option IncomingResponseConfig
  | [], _, _ => none
  | resp :: rest, randVal, cumulative =>
    if randVal < cumulative + resp.Share then some resp
    else selectLoop rest randVal (cumulative + resp.Share)

/-- `selectWeightedResponse`.  `randVal` is the value drawn from
`rand.Float64()`; the Go code draws it only after the empty and singleton
early returns, so those branches ignore it. -/
def selectWeightedResponse (responses : List IncomingResponseConfig) (randVal : ℚ) :
    IncomingResponseConfig :=
  match responses with
  | [] => { StatusCode := 500, Share := 1, MinResponseMs := 0, MaxResponseMs := 0 }
  | [resp] => resp
  | resp1 :: resp2 :: rest =>
    match selectLoop (resp1 :: resp2 :: rest) randVal 0 with
    | some chosen => chosen
    | none => (resp1 :: resp2 :: rest).getLast (by simp)

/-- C10. A singleton response list is returned unconditionally — whatever
its share and whatever the random draw — and the empty list yields the
`{500, share 1, 0ms}` fallback. -/
theorem selectWeightedResponse_degenerate :
    (∀ (resp : IncomingResponseConfig) (u v : ℚ),
      selectWeightedResponse [resp] u = resp
        ∧ selectWeightedResponse [resp] u = selectWeightedResponse [resp] v)
    ∧ (∀ u : ℚ, selectWeightedResponse [] u
        = { StatusCode := 500, Share := 1, MinResponseMs := 0, MaxResponseMs := 0 }) :=
  ⟨fun _ _ _ => ⟨rfl, rfl⟩, fun _ => rfl⟩

end Mox
